import Mathlib

/-!
# Verification of the tiny-evm core against its natural-language specification

This file shallowly embeds the core data structures and operations of the
tiny-evm interpreter (a Rust EVM implementation) and proves or refutes the
frozen claims about it.

Conventions of the embedding:
* A 256-bit `Word` (`ethereum_types::U256`) is a `Nat`, with wrap-around made
  explicit by `% two256`.
* `Gas` (`u64`) is a `Nat`; `saturating_add` is made explicit with `min _ u64Max`.
* Rust's `&mut` receivers together with the `?` early return are embedded by
  state passing: a handler maps the incoming state to a pair of an
  `Except EvmErr Unit` and the state as it stands when the handler returns,
  so that mutations performed before a failing sub-step remain visible,
  exactly as in the Rust code.
* `&self` methods are embedded as pure functions of the state (they cannot
  mutate it).
-/

/-- `2^256`, the modulus of EVM word arithmetic. -/
def two256 : Nat := 2 ^ 256

/-- Maximum value of a `u64` (`Gas` saturates here). -/
def u64Max : Nat := 2 ^ 64 - 1

/-- The error kinds of `src/types.rs` that the embedded operations can raise. -/
inductive EvmErr where
  | stackOverflow : EvmErr
  | stackUnderflow : EvmErr
  | outOfGas (remaining : Nat) : EvmErr
  | invalidOpcode (b : Nat) : EvmErr
  | invalidJump (target : Nat) : EvmErr
  deriving Repr, DecidableEq

/-! ## Stack (`src/evm/stack.rs`)

The stack is a `Vec<Word>`; we embed it as a `List Nat` with the TOP at the
head (Rust pushes/pops at the end of the `Vec`; head-of-list is the same end).
-/

/-- Stack depth bound `MAX_STACK_DEPTH` from `src/evm/stack.rs`. -/
def MAX_STACK_DEPTH : Nat := 1024

/-- `Stack::push`: fails with `StackOverflow` when the depth is already 1024,
otherwise prepends (Rust appends at the `Vec` end, which is the top). -/
def Stack.push (s : List Nat) (v : Nat) : Except EvmErr (List Nat) :=
  if MAX_STACK_DEPTH ≤ s.length then .error .stackOverflow
  else .ok (v :: s)

/-- `Stack::pop`: fails with `StackUnderflow` on the empty stack, otherwise
removes and returns the top element. -/
def Stack.pop (s : List Nat) : Except EvmErr (Nat × List Nat) :=
  match s with
  | [] => .error .stackUnderflow
  | a :: rest => .ok (a, rest)

/-! ## Arithmetic opcode handlers (`src/evm/opcodes/arithmetic.rs`)

Each handler mirrors the Rust `execute(&self, evm: &mut EVM)` body statement
by statement.  The returned pair carries the stack as it stands when the
function returns, including the partially-popped stack of a failing run. -/

/-- `AddOp::execute`: pop `a`, pop `b`, push `(a+b) mod 2^256`
(`overflowing_add`). -/
def AddOp.execute (s : List Nat) : Except EvmErr Unit × List Nat :=
  match Stack.pop s with
  | .error e => (.error e, s)
  | .ok (a, s1) =>
    match Stack.pop s1 with
    | .error e => (.error e, s1)
    | .ok (b, s2) =>
      match Stack.push s2 ((a + b) % two256) with
      | .error e => (.error e, s2)
      | .ok s3 => (.ok (), s3)

/-- `MulOp::execute`: pop `a`, pop `b`, push `(a*b) mod 2^256`
(`overflowing_mul`). -/
def MulOp.execute (s : List Nat) : Except EvmErr Unit × List Nat :=
  match Stack.pop s with
  | .error e => (.error e, s)
  | .ok (a, s1) =>
    match Stack.pop s1 with
    | .error e => (.error e, s1)
    | .ok (b, s2) =>
      match Stack.push s2 ((a * b) % two256) with
      | .error e => (.error e, s2)
      | .ok s3 => (.ok (), s3)

/-- `SubOp::execute`: pop `a` (top), pop `b` (second), push `b - a` wrapped
mod `2^256` (`b.overflowing_sub(a)`); for `a b < 2^256` the wrapped value is
`(b + (2^256 - a)) % 2^256`. -/
def SubOp.execute (s : List Nat) : Except EvmErr Unit × List Nat :=
  match Stack.pop s with
  | .error e => (.error e, s)
  | .ok (a, s1) =>
    match Stack.pop s1 with
    | .error e => (.error e, s1)
    | .ok (b, s2) =>
      match Stack.push s2 ((b + (two256 - a)) % two256) with
      | .error e => (.error e, s2)
      | .ok s3 => (.ok (), s3)

/-- `DivOp::execute`: pop `a` (dividend, top), pop `b` (divisor); push
`a / b`, or 0 when `b = 0`. -/
def DivOp.execute (s : List Nat) : Except EvmErr Unit × List Nat :=
  match Stack.pop s with
  | .error e => (.error e, s)
  | .ok (a, s1) =>
    match Stack.pop s1 with
    | .error e => (.error e, s1)
    | .ok (b, s2) =>
      match Stack.push s2 (if b = 0 then 0 else a / b) with
      | .error e => (.error e, s2)
      | .ok s3 => (.ok (), s3)

/-- `ModOp::execute`: pop `a` (top), pop `b` (modulus); push `a % b`,
or 0 when `b = 0`. -/
def ModOp.execute (s : List Nat) : Except EvmErr Unit × List Nat :=
  match Stack.pop s with
  | .error e => (.error e, s)
  | .ok (a, s1) =>
    match Stack.pop s1 with
    | .error e => (.error e, s1)
    | .ok (b, s2) =>
      match Stack.push s2 (if b = 0 then 0 else a % b) with
      | .error e => (.error e, s2)
      | .ok s3 => (.ok (), s3)

/-- `u512_to_u256` of `src/evm/opcodes/arithmetic.rs`: keep the low 256 bits
of a 512-bit value. -/
def u512_to_u256 (v : Nat) : Nat := v % two256

/-- `AddModOp::execute`: pop `n` (modulus, top), pop `b`, pop `a`; push 0 when
`n = 0`, else push `u512_to_u256 ((a + b) % n)` where the sum is formed with
512-bit precision (in `Nat` the sum is exact). -/
def AddModOp.execute (s : List Nat) : Except EvmErr Unit × List Nat :=
  match Stack.pop s with
  | .error e => (.error e, s)
  | .ok (n, s1) =>
    match Stack.pop s1 with
    | .error e => (.error e, s1)
    | .ok (b, s2) =>
      match Stack.pop s2 with
      | .error e => (.error e, s2)
      | .ok (a, s3) =>
        if n = 0 then
          match Stack.push s3 0 with
          | .error e => (.error e, s3)
          | .ok s4 => (.ok (), s4)
        else
          match Stack.push s3 (u512_to_u256 ((a + b) % n)) with
          | .error e => (.error e, s3)
          | .ok s4 => (.ok (), s4)

/-- `MulModOp::execute`: pop `n` (modulus, top), pop `b`, pop `a`; push 0 when
`n = 0`, else push `u512_to_u256 ((a * b) % n)` where the product is formed
with 512-bit precision (in `Nat` the product is exact). -/
def MulModOp.execute (s : List Nat) : Except EvmErr Unit × List Nat :=
  match Stack.pop s with
  | .error e => (.error e, s)
  | .ok (n, s1) =>
    match Stack.pop s1 with
    | .error e => (.error e, s1)
    | .ok (b, s2) =>
      match Stack.pop s2 with
      | .error e => (.error e, s2)
      | .ok (a, s3) =>
        if n = 0 then
          match Stack.push s3 0 with
          | .error e => (.error e, s3)
          | .ok s4 => (.ok (), s4)
        else
          match Stack.push s3 (u512_to_u256 ((a * b) % n)) with
          | .error e => (.error e, s3)
          | .ok s4 => (.ok (), s4)

/-! ## Gas meter (`src/gas/mod.rs`) -/

/-- `GasMeter` of `src/gas/mod.rs`: remaining gas, initial limit,
accumulated refunds (all `u64` in the source). -/
structure GasMeter where
  gas : Nat
  initial_gas : Nat
  refunds : Nat
  deriving Repr, DecidableEq

/-- `GasMeter::new(gas_limit)`. -/
def GasMeter.new (gas_limit : Nat) : GasMeter :=
  { gas := gas_limit, initial_gas := gas_limit, refunds := 0 }

/-- `GasMeter::gas_used` = `initial_gas - gas` (u64 subtraction; meaningful
under the invariant `gas ≤ initial_gas`). -/
def GasMeter.gas_used (m : GasMeter) : Nat := m.initial_gas - m.gas

/-- `GasMeter::consume`: errors with `OutOfGas` (carrying the remaining gas)
when `gas < amount`, leaving the meter untouched; otherwise debits. -/
def GasMeter.consume (m : GasMeter) (amount : Nat) : Except EvmErr Unit × GasMeter :=
  if m.gas < amount then (.error (.outOfGas m.gas), m)
  else (.ok (), { m with gas := m.gas - amount })

/-- `GasMeter::add_refund`: `refunds = refunds.saturating_add(amount)`. -/
def GasMeter.add_refund (m : GasMeter) (amount : Nat) : GasMeter :=
  { m with refunds := min (m.refunds + amount) u64Max }

/-- `GasMeter::apply_refunds`: credit `min(refunds, gas_used / 2)` back to
`gas` and clear `refunds`. -/
def GasMeter.apply_refunds (m : GasMeter) : GasMeter :=
  let max_refund := m.gas_used / 2
  let refund := min m.refunds max_refund
  { m with gas := m.gas + refund, refunds := 0 }

/-! ## Memory (`src/evm/memory.rs`)

A `Vec<u8>` embedded as `List Nat` (each entry a byte value).  Every
operation first calls `expand_to` and then reads or overwrites; operations
return the memory as it stands afterwards (the Rust receiver is `&mut self`).
-/

/-- `Memory::expand_to`: `resize(size, 0)` when `size > len`, i.e. append
zero bytes up to `size`; otherwise leave the memory untouched. -/
def Memory.expand_to (m : List Nat) (size : Nat) : List Nat :=
  if m.length < size then m ++ List.replicate (size - m.length) 0 else m

/-- Big-endian interpretation of a byte list as a number
(`Word::from_big_endian`). -/
def beWord (bytes : List Nat) : Nat := bytes.foldl (fun acc b => acc * 256 + b) 0

/-- `Memory::load`: expand to `offset + 32`, then read the 32 bytes at
`offset` as a big-endian word.  Returns the word and the (possibly expanded)
memory. -/
def Memory.load (m : List Nat) (offset : Nat) : Nat × List Nat :=
  let m1 := Memory.expand_to m (offset + 32)
  (beWord ((m1.drop offset).take 32), m1)

/-- The 32 big-endian bytes of a word (`value.to_big_endian`). -/
def wordBytes (v : Nat) : List Nat :=
  (List.range 32).map (fun i => v / 256 ^ (31 - i) % 256)

/-- Overwrite `m[off .. off + bytes.length)` with `bytes`, guarded exactly as
the source guards (`if end <= self.data.len()`); out of bounds, do nothing. -/
def Memory.write_bytes (m : List Nat) (off : Nat) (bytes : List Nat) : List Nat :=
  if off + bytes.length ≤ m.length then
    m.take off ++ bytes ++ m.drop (off + bytes.length)
  else m

/-- `Memory::store`: expand to `offset + 32`, then copy the 32 big-endian
bytes of `value` into place. -/
def Memory.store (m : List Nat) (offset : Nat) (value : Nat) : List Nat :=
  let m1 := Memory.expand_to m (offset + 32)
  Memory.write_bytes m1 offset (wordBytes value)

/-- `Memory::store_byte`: expand to `offset + 1`, then set the byte at
`offset` (the source's `if offset < len` guard is `List.set`'s out-of-range
no-op). -/
def Memory.store_byte (m : List Nat) (offset : Nat) (value : Nat) : List Nat :=
  let m1 := Memory.expand_to m (offset + 1)
  m1.set offset value

/-- `Memory::load_range`: expand to `offset + size`, then return the `size`
bytes at `offset` (after expansion the range is always in bounds, so the
zero-padding branch of the source is the copied slice itself). -/
def Memory.load_range (m : List Nat) (offset : Nat) (size : Nat) : List Nat × List Nat :=
  let m1 := Memory.expand_to m (offset + size)
  ((m1.drop offset).take size, m1)

/-- `Memory::store_range`: no-op for empty data, else expand to
`offset + data.length` and copy `data` into place. -/
def Memory.store_range (m : List Nat) (offset : Nat) (data : List Nat) : List Nat :=
  if data.isEmpty then m
  else
    let m1 := Memory.expand_to m (offset + data.length)
    Memory.write_bytes m1 offset data

/-! ## Storage (`src/evm/storage.rs`)

The `HashMap<Word, Word>` is embedded as an association list. -/

/-- Storage: key/value association list standing for the backing `HashMap`. -/
def Storage := List (Nat × Nat)

/-- `Storage::load`: the stored value, or 0 if the key is absent. -/
def Storage.load (st : Storage) (key : Nat) : Nat :=
  (List.lookup key st).getD 0

/-- `Storage::operation_cost`: the SSTORE pricing of the source, a four-way
case split on the zeroness of the current and the new value. -/
def Storage.operation_cost (st : Storage) (key new_value : Nat) : Nat :=
  let current_value := Storage.load st key
  if current_value = 0 ∧ ¬ new_value = 0 then 20000
  else if ¬ current_value = 0 ∧ new_value = 0 then 20000
  else if ¬ current_value = 0 ∧ ¬ new_value = 0 then 20000
  else 0

/-- `Storage::operation_refund`: 15000 exactly when a non-zero slot is
written to zero. -/
def Storage.operation_refund (st : Storage) (key new_value : Nat) : Nat :=
  let current_value := Storage.load st key
  if ¬ current_value = 0 ∧ new_value = 0 then 15000 else 0

/-! ## World state (`src/state/mod.rs`) -/

/-- `Account` of `src/state/mod.rs` (hashes embedded as numbers). -/
structure Account where
  balance : Nat
  nonce : Nat
  code_hash : Nat
  storage_root : Nat
  deriving Repr, DecidableEq

/-- `Account::new_eoa`: the zero-valued externally owned account. -/
def Account.new_eoa : Account :=
  { balance := 0, nonce := 0, code_hash := 0, storage_root := 0 }

/-- The world state's account map (`HashMap<Address, Account>`), embedded as
an association list from addresses (numbers) to accounts. -/
structure EvmState where
  accounts : List (Nat × Account)
  deriving Repr, DecidableEq

/-- `State::account_exists`: `accounts.contains_key(address)`. -/
def EvmState.account_exists (st : EvmState) (address : Nat) : Bool :=
  (List.lookup address st.accounts).isSome

/-- `State::get_balance` (takes `&self`): the account's balance or 0;
being a shared-reference method it returns only the value and cannot touch
the account map. -/
def EvmState.get_balance (st : EvmState) (address : Nat) : Nat :=
  ((List.lookup address st.accounts).map Account.balance).getD 0

/-- `State::get_nonce` (takes `&self`): the account's nonce or 0. -/
def EvmState.get_nonce (st : EvmState) (address : Nat) : Nat :=
  ((List.lookup address st.accounts).map Account.nonce).getD 0

/-- `State::get_account_mut`: `entry(address).or_insert_with(new_eoa)` — the
only implicit account creation in the source.  Returns the account and the
updated state. -/
def EvmState.get_account_mut (st : EvmState) (address : Nat) : Account × EvmState :=
  match List.lookup address st.accounts with
  | some acc => (acc, st)
  | none => (Account.new_eoa, ⟨st.accounts ++ [(address, Account.new_eoa)]⟩)

/-! ## Gas cost functions (`src/gas/mod.rs`) -/

/-- `U256::leading_zeros` for a 256-bit value (the source calls it on the
`Word` exponent): 256 minus the bit length. -/
def U256.leading_zeros (v : Nat) : Nat :=
  if v = 0 then 256 else 256 - (Nat.log2 v + 1)

/-- `exp_cost` of `src/gas/mod.rs`: `costs::EXP = 10` for a zero exponent,
else `10 + (256 - leading_zeros(exponent)) * 50`. -/
def exp_cost (exponent : Nat) : Nat :=
  if exponent = 0 then 10
  else 10 + (256 - U256.leading_zeros exponent) * 50

/-- `log_cost` of `src/gas/mod.rs`: per-topic base cost
(`costs::LOG0..LOG4`), plus `data_size * costs::LOW` with `costs::LOW = 5`;
0 for more than 4 topics. -/
def log_cost (topics data_size : Nat) : Nat :=
  match topics with
  | 0 => 375 + data_size * 5
  | 1 => 750 + data_size * 5
  | 2 => 1125 + data_size * 5
  | 3 => 1500 + data_size * 5
  | 4 => 1875 + data_size * 5
  | _ => 0

/-! ## Bytecode execution

The per-opcode handlers above are from the sources.  The machine state,
the opcode table and the fetch–decode–meter–execute–advance loop that tie
them together live in the repository's dispatcher, which is not among the
provided sources; they are modelled from the specification (§4.6) below. -/

/-- The execution-frame fields touched by the opcodes under study
(stack, program counter, remaining gas, stop flag of the `EVM` struct). -/
structure Machine where
  stack : List Nat
  pc : Nat
  gas : Nat
  stopped : Bool
  deriving Repr, DecidableEq

/-- `PushOp::execute` from `src/evm/opcodes/stack.rs` for `PUSHn`
(`bytes_to_read = n`): error `InvalidJump` when `pc + n ≥ |code|`; else read
the `n` immediate bytes after the opcode big-endian into a word
(`(value << 8) | byte` on a `U256`, i.e. mod `2^256`), push it, and advance
`pc` by `1 + n`. -/
def PushOp.execute (n : Nat) (code : List Nat) (st : Machine) : Except EvmErr Machine :=
  if code.length ≤ st.pc + n then .error (.invalidJump (st.pc + n))
  else
    let immediate := (code.drop (st.pc + 1)).take n
    let value := immediate.foldl (fun acc b => (acc * 256 + b) % two256) 0
    match Stack.push st.stack value with
    | .error e => .error e
    | .ok s1 => .ok { st with stack := s1, pc := st.pc + 1 + n }

/-- Modelled from the spec: the opcode table of §4.6/§6 restricted to the
instruction families whose handlers are among the provided sources (STOP,
the arithmetic family of `src/evm/opcodes/arithmetic.rs`, and PUSH1..PUSH32);
every other byte is an invalid opcode. -/
inductive Op where
  | stop : Op
  | add : Op
  | mul : Op
  | sub : Op
  | div : Op
  | modOp : Op
  | addmod : Op
  | mulmod : Op
  | push (n : Nat) : Op
  | invalid (b : Nat) : Op
  deriving Repr, DecidableEq

/-- Modelled from the spec: byte → opcode decoding (§6: `0x00` STOP,
`0x01`–`0x09` the arithmetic family, `0x60`–`0x7F` PUSH1..PUSH32). -/
def decode (b : Nat) : Op :=
  if b = 0x00 then .stop
  else if b = 0x01 then .add
  else if b = 0x02 then .mul
  else if b = 0x03 then .sub
  else if b = 0x04 then .div
  else if b = 0x06 then .modOp
  else if b = 0x08 then .addmod
  else if b = 0x09 then .mulmod
  else if 0x60 ≤ b ∧ b ≤ 0x7F then .push (b - 0x5F)
  else .invalid b

/-- Base gas charged at step 3 of the spec's execution loop, with the
per-opcode constants of `src/gas/mod.rs` (`costs::*`). -/
def Op.base_gas : Op → Nat
  | .stop => 0
  | .add => 3
  | .mul => 5
  | .sub => 3
  | .div => 5
  | .modOp => 5
  | .addmod => 8
  | .mulmod => 8
  | .push _ => 3
  | .invalid _ => 0

/-- Run a stack-only handler inside the loop: on success the loop advances
`pc` by one (no immediate bytes); a handler error aborts the frame. -/
def applyStackHandler (f : List Nat → Except EvmErr Unit × List Nat)
    (st : Machine) : Except EvmErr Machine :=
  match f st.stack with
  | (.ok _, s1) => .ok { st with stack := s1, pc := st.pc + 1 }
  | (.error e, _) => .error e

/-- Modelled from the spec: one iteration of the execution loop (§4.6):
decode `code[pc]`, charge the base gas (may OOG), dispatch to the handler,
and advance `pc` by `1 + immediate_bytes` unless the handler moved `pc`
itself (PUSH does, via `PushOp::execute`). -/
def Machine.step (code : List Nat) (st : Machine) : Except EvmErr Machine :=
  let op := decode (code.getD st.pc 0)
  if st.gas < op.base_gas then .error (.outOfGas st.gas)
  else
    let st := { st with gas := st.gas - op.base_gas }
    match op with
    | .stop => .ok { st with stopped := true, pc := st.pc + 1 }
    | .add => applyStackHandler AddOp.execute st
    | .mul => applyStackHandler MulOp.execute st
    | .sub => applyStackHandler SubOp.execute st
    | .div => applyStackHandler DivOp.execute st
    | .modOp => applyStackHandler ModOp.execute st
    | .addmod => applyStackHandler AddModOp.execute st
    | .mulmod => applyStackHandler MulModOp.execute st
    | .push n => PushOp.execute n code st
    | .invalid b => .error (.invalidOpcode b)

/-- Modelled from the spec: the execution loop (§4.6 step 1 terminates when
`stopped ∨ pc ≥ |code|`), with a step-count fuel; each successful step
strictly increases `pc`, so `|code| + 1` steps always suffice. -/
def Machine.run (fuel : Nat) (code : List Nat) (st : Machine) : Except EvmErr Machine :=
  match fuel with
  | 0 => .ok st
  | fuel + 1 =>
    if st.stopped ∨ code.length ≤ st.pc then .ok st
    else
      match Machine.step code st with
      | .error e => .error e
      | .ok st1 => Machine.run fuel code st1

/-- Execute a bytecode program from a fresh frame with the given gas. -/
def exec_bytecode (code : List Nat) (gas : Nat) : Except EvmErr Machine :=
  Machine.run (code.length + 1) code { stack := [], pc := 0, gas := gas, stopped := false }

/-! ## Helper lemmas -/

/-- `expand_to` never shrinks: the new length is the max of the old length
and the requested size. -/
theorem expand_to_length (m : List Nat) (s : Nat) :
    (Memory.expand_to m s).length = max m.length s := by
  unfold Memory.expand_to
  split <;> simp <;> omega

/-- An in-bounds overwrite preserves the length; out of bounds it is a no-op. -/
theorem write_bytes_length (m : List Nat) (off : Nat) (bytes : List Nat) :
    (Memory.write_bytes m off bytes).length = m.length := by
  unfold Memory.write_bytes
  split
  · simp only [List.length_append, List.length_take, List.length_drop]
    omega
  · rfl

/-- Viewed as a zero-default infinite byte array, `expand_to` changes
nothing: old positions keep their byte, new positions hold the 0 they
already denoted. -/
theorem expand_to_getD (m : List Nat) (s i : Nat) :
    (Memory.expand_to m s).getD i 0 = m.getD i 0 := by
  unfold Memory.expand_to
  split
  · rcases Nat.lt_or_ge i m.length with h | h
    · exact List.getD_append _ _ _ _ h
    · rw [List.getD_append_right _ _ _ _ h, List.getD_eq_default _ _ h]
      rcases Nat.lt_or_ge (i - m.length) (s - m.length) with h2 | h2
      · rw [List.getD_eq_getElem _ _ (by simpa using h2)]
        simp
      · exact List.getD_eq_default _ _ (by simpa using h2)
  · rfl

/-- Reading an in-bounds slice `[off, off+k)` of a list is reading the
zero-default array entry at each position. -/
theorem drop_take_eq_map_getD (ml : List Nat) (off k : Nat)
    (h : off + k ≤ ml.length) :
    (ml.drop off).take k = (List.range k).map (fun i => ml.getD (off + i) 0) := by
  apply List.ext_getElem
  · simp
    omega
  · intro i h1 h2
    have hi : i < k := by simpa using h2
    have hoff : off + i < ml.length := by omega
    simp only [List.getElem_take, List.getElem_drop, List.getElem_map, List.getElem_range]
    rw [List.getD_eq_getElem _ _ hoff]

/-- A key absent from the first chunk of an association list is looked up
in the second chunk. -/
theorem lookup_append_of_none {α β : Type} [BEq α] (l1 l2 : List (α × β)) (a : α)
    (h : List.lookup a l1 = none) :
    List.lookup a (l1 ++ l2) = List.lookup a l2 := by
  induction l1 with
  | nil => rfl
  | cons kv rest ih =>
    rw [List.cons_append]
    cases hk : a == kv.1 with
    | true => simp [List.lookup, hk] at h
    | false =>
      simp only [List.lookup, hk] at h ⊢
      exact ih h

/-! ## Claim theorems -/

/-- C4: for every storage `st`, key `k` and new value `v` with
`v_old = load(k)`: `operation_cost` returns 20000 exactly when
`v_old ≠ 0 ∨ v ≠ 0` and 0 when both are zero, and `operation_refund`
returns 15000 exactly when `v_old ≠ 0 ∧ v = 0` and 0 otherwise.  Both are
`&self` methods in the source and are embedded as pure functions of the
storage, so neither mutates it. -/
theorem sstore_cost_and_refund_cases (st : Storage) (k v : Nat) :
    Storage.operation_cost st k v
        = (if Storage.load st k ≠ 0 ∨ v ≠ 0 then 20000 else 0)
    ∧ Storage.operation_refund st k v
        = (if Storage.load st k ≠ 0 ∧ v = 0 then 15000 else 0) := by
  unfold Storage.operation_cost Storage.operation_refund
  by_cases h0 : Storage.load st k = 0 <;> by_cases hv : v = 0 <;>
    simp [h0, hv]

/-- C5 counterexample: `store_byte` at offset 0 on empty memory leaves a
memory of size 1, which is neither 0 nor any other multiple of 32 — the
claim that the size is a multiple of 32 after every memory operation fails
here. -/
theorem store_byte_size_not_word_multiple :
    (Memory.store_byte [] 0 5).length = 1
    ∧ ¬ (32 ∣ (Memory.store_byte [] 0 5).length) := by
  constructor
  · rfl
  · intro h
    rw [show (Memory.store_byte [] 0 5).length = 1 from rfl] at h
    omega

/-- C5 (amended): after each memory operation (`load`, `store`,
`store_byte`, `load_range`, `store_range`) the memory size is at least the
size before the operation — memory never shrinks.  (The size is NOT in
general a multiple of 32: `expand_to` grows to the exact byte extent
touched.) -/
theorem memory_size_never_shrinks (m : List Nat) (off v b len : Nat)
    (data : List Nat) :
    m.length ≤ (Memory.load m off).2.length
    ∧ m.length ≤ (Memory.store m off v).length
    ∧ m.length ≤ (Memory.store_byte m off b).length
    ∧ m.length ≤ (Memory.load_range m off len).2.length
    ∧ m.length ≤ (Memory.store_range m off data).length := by
  refine ⟨?_, ?_, ?_, ?_, ?_⟩
  · simp [Memory.load, expand_to_length]
  · simp [Memory.store, write_bytes_length, expand_to_length]
  · simp [Memory.store_byte, expand_to_length]
  · simp [Memory.load_range, expand_to_length]
  · unfold Memory.store_range
    split
    · exact Nat.le_refl _
    · simp [write_bytes_length, expand_to_length]

/-- C6 (code bug): `exp_cost` computes `10 + 50·bit_length(b)`, not the
claimed `10 + 50·⌈bit_length(b)/8⌉`.  At exponent 256 (bit length 9) the
code returns 460, the claimed formula gives `10 + 50·⌈9/8⌉ = 110`, and the
repository's own unit test `test_exp_cost` expects `10 + 8·50 = 410` —
the code does not even satisfy its own test suite. -/
theorem exp_cost_diverges_at_256 :
    exp_cost 256 = 460
    ∧ exp_cost 256 ≠ 10 + 50 * ((9 + 7) / 8)
    ∧ exp_cost 256 ≠ 10 + 8 * 50 := by
  have h : exp_cost 256 = 460 := by
    simp [exp_cost, U256.leading_zeros, Nat.log2]
  refine ⟨h, ?_, ?_⟩ <;> (rw [h]; omega)

/-- C7 (code bug): `log_cost` charges `costs::LOW = 5` gas per data byte,
not the claimed 8.  At 2 topics and 32 data bytes the code returns
`1125 + 32·5 = 1285`, the claim demands `375·3 + 8·32 = 1381`, and the
repository's own unit test `test_log_cost` expects `1125 + 5 = 1130` —
the code does not even satisfy its own test suite. -/
theorem log_cost_diverges_at_2_32 :
    log_cost 2 32 = 1285
    ∧ log_cost 2 32 ≠ 375 * (2 + 1) + 8 * 32
    ∧ log_cost 2 32 ≠ 1125 + 5 := by
  refine ⟨rfl, ?_, ?_⟩ <;> rw [show log_cost 2 32 = 1285 from rfl] <;> omega

/-- C8: under the meter invariant `gas ≤ initial_gas`, `apply_refunds`
increases the remaining gas by exactly `min(refunds, gas_used / 2)`, resets
the refund pool to 0, never credits more than half the gas consumed, and
never pushes the remaining gas above the initial limit. -/
theorem apply_refunds_caps_at_half_used (m : GasMeter)
    (h : m.gas ≤ m.initial_gas) :
    (m.apply_refunds).gas = m.gas + min m.refunds (m.gas_used / 2)
    ∧ (m.apply_refunds).refunds = 0
    ∧ (m.apply_refunds).gas - m.gas ≤ m.gas_used / 2
    ∧ (m.apply_refunds).gas ≤ m.initial_gas := by
  unfold GasMeter.apply_refunds GasMeter.gas_used
  refine ⟨rfl, rfl, ?_, ?_⟩
  · simp
  · simp
    omega

/-- C8 witness: the theorem applied to the meter of the repository's
`test_gas_refund_limit` (limit 1000, 200 consumed, 150 refunds):
`min(150, 100) = 100` is credited, landing at 900 ≤ 1000. -/
theorem apply_refunds_caps_at_half_used_witness :
    (GasMeter.apply_refunds ⟨800, 1000, 150⟩).gas
        = 800 + min 150 (GasMeter.gas_used ⟨800, 1000, 150⟩ / 2)
    ∧ (GasMeter.apply_refunds ⟨800, 1000, 150⟩).refunds = 0
    ∧ (GasMeter.apply_refunds ⟨800, 1000, 150⟩).gas - 800
        ≤ GasMeter.gas_used ⟨800, 1000, 150⟩ / 2
    ∧ (GasMeter.apply_refunds ⟨800, 1000, 150⟩).gas ≤ 1000 :=
  apply_refunds_caps_at_half_used ⟨800, 1000, 150⟩ (by decide)

/-- C1 counterexample: on the stack with 3 on top of 5 — the configuration
produced by `PUSH1 5; PUSH1 3` — the SUB handler pushes 2 = 5 − 3
(second − top), not the claimed `s[0] − s[1] = 3 − 5 ≡ 2^256 − 2`; the
repository's own `test_sub_basic` asserts this 2. -/
theorem sub_pushes_two_not_top_minus_second :
    SubOp.execute [3, 5] = (.ok (), [2])
    ∧ (2 : Nat) ≠ (3 + (two256 - 5)) % two256 := by
  have hbig : (1000 : Nat) < two256 := by unfold two256; norm_num
  constructor
  · rfl
  · have h1 : 3 + (two256 - 5) = two256 - 2 := by omega
    rw [h1, Nat.mod_eq_of_lt (by omega)]
    omega

/-- C1 (amended): the SUB handler pops `a` (top) and `b` (second) and pushes
`s[1] − s[0] = b − a` modulo `2^256` (for `a ≤ b` this is plain `b − a`);
consequently executing code `60 05 60 03 03` leaves the stack top equal to
2, which is non-zero. -/
theorem sub_pushes_second_minus_top (a b : Nat) (rest : List Nat)
    (ha : a < two256) (hb : b < two256) (hr : rest.length < 1024) :
    SubOp.execute (a :: b :: rest)
        = (.ok (), ((b + (two256 - a)) % two256) :: rest)
    ∧ (a ≤ b → (b + (two256 - a)) % two256 = b - a)
    ∧ (exec_bytecode [0x60, 0x05, 0x60, 0x03, 0x03] 100000).map Machine.stack
        = .ok [2]
    ∧ (2 : Nat) ≠ 0 := by
  refine ⟨?_, ?_, rfl, by omega⟩
  · unfold SubOp.execute Stack.pop Stack.push MAX_STACK_DEPTH
    simp only []
    rw [if_neg (by omega)]
  · intro hab
    have h1 : b + (two256 - a) = two256 + (b - a) := by omega
    rw [h1, Nat.add_mod_left, Nat.mod_eq_of_lt (by omega)]

/-- C1 witness: the amended theorem at the concrete configuration of the
claim's program (top 3, second 5, empty remainder). -/
theorem sub_pushes_second_minus_top_witness :
    SubOp.execute [3, 5]
        = (.ok (), ((5 + (two256 - 3)) % two256) :: ([] : List Nat))
    ∧ ((3 : Nat) ≤ 5 → (5 + (two256 - 3)) % two256 = 5 - 3)
    ∧ (exec_bytecode [0x60, 0x05, 0x60, 0x03, 0x03] 100000).map Machine.stack
        = .ok [2]
    ∧ (2 : Nat) ≠ 0 :=
  sub_pushes_second_minus_top 3 5 []
    (by unfold two256; norm_num) (by unfold two256; norm_num) (by simp)

/-- C2: ADDMOD pops the modulus `n` (top), `b` and `a`, and pushes the exact
`(a + b) mod n` — computed with 512-bit intermediates so no 256-bit
truncation occurs — and 0 when `n = 0`; MULMOD does the same for
`(a · b) mod n`. -/
theorem addmod_mulmod_exact (a b n : Nat) (rest : List Nat)
    (hn : n < two256) (hr : rest.length < 1024) :
    AddModOp.execute (n :: b :: a :: rest)
        = (.ok (), (if n = 0 then 0 else (a + b) % n) :: rest)
    ∧ MulModOp.execute (n :: b :: a :: rest)
        = (.ok (), (if n = 0 then 0 else (a * b) % n) :: rest) := by
  have hpush : ¬ MAX_STACK_DEPTH ≤ rest.length := by
    unfold MAX_STACK_DEPTH; omega
  by_cases h0 : n = 0
  · subst h0
    constructor
    · unfold AddModOp.execute Stack.pop Stack.push
      simp [hpush]
    · unfold MulModOp.execute Stack.pop Stack.push
      simp [hpush]
  · have hadd : u512_to_u256 ((a + b) % n) = (a + b) % n := by
      unfold u512_to_u256
      exact Nat.mod_eq_of_lt (lt_trans (Nat.mod_lt _ (Nat.pos_of_ne_zero h0)) hn)
    have hmul : u512_to_u256 ((a * b) % n) = (a * b) % n := by
      unfold u512_to_u256
      exact Nat.mod_eq_of_lt (lt_trans (Nat.mod_lt _ (Nat.pos_of_ne_zero h0)) hn)
    constructor
    · unfold AddModOp.execute Stack.pop Stack.push
      simp [h0, hpush, hadd]
    · unfold MulModOp.execute Stack.pop Stack.push
      simp [h0, hpush, hmul]

/-- C2 witness: the theorem at the spec's own ADDMOD scenario
(`a = 2^256 − 9`, `b = 20`, `n = 10`, where the untruncated result is 7). -/
theorem addmod_mulmod_exact_witness :
    AddModOp.execute [10, 20, two256 - 9]
        = (.ok (), (if (10 : Nat) = 0 then 0 else (two256 - 9 + 20) % 10) :: ([] : List Nat))
    ∧ MulModOp.execute [10, 20, two256 - 9]
        = (.ok (), (if (10 : Nat) = 0 then 0 else ((two256 - 9) * 20) % 10) :: ([] : List Nat)) :=
  addmod_mulmod_exact (two256 - 9) 20 10 []
    (by unfold two256; norm_num) (by simp)

/-- C3 counterexample: the ADD handler executed on the one-element stack
`[5]` pops the 5, then fails `StackUnderflow` on the second pop — the stack
after the failing call is `[]`, not the original `[5]`; the claim that a
failing operation leaves the stack exactly as before is false. -/
theorem add_failure_mutates_stack :
    AddOp.execute [5] = (.error .stackUnderflow, [])
    ∧ ([] : List Nat) ≠ [5] := by
  exact ⟨rfl, by simp⟩

/-- C3 (amended): `GasMeter::consume(n)` with `n` greater than the remaining
gas fails `OutOfGas` and leaves the meter (gas counter, initial limit,
refunds) exactly as before — it checks before mutating.  Arithmetic
handlers, however, pop before checking: ADD on a stack with a single
operand pops it and then fails, so a failing handler does NOT in general
leave the stack unchanged. -/
theorem consume_checks_before_mutating (m : GasMeter) (n : Nat)
    (h : m.gas < n) :
    GasMeter.consume m n = (.error (.outOfGas m.gas), m)
    ∧ (∀ x : Nat, AddOp.execute [x] = (.error .stackUnderflow, [])) := by
  constructor
  · unfold GasMeter.consume
    rw [if_pos h]
  · intro x
    rfl

/-- C3 witness: the amended theorem at the meter of the repository's
`test_gas_insufficient` (100 gas remaining, consuming 200). -/
theorem consume_checks_before_mutating_witness :
    GasMeter.consume ⟨100, 100, 0⟩ 200
        = (.error (.outOfGas (GasMeter.gas ⟨100, 100, 0⟩)), ⟨100, 100, 0⟩)
    ∧ (∀ x : Nat, AddOp.execute [x] = (.error .stackUnderflow, [])) :=
  consume_checks_before_mutating ⟨100, 100, 0⟩ 200 (by decide)

/-- C9 counterexample: on the empty world state, `get_balance(1)` and
`get_nonce(1)` return 0, but — both being `&self` methods that cannot touch
the account map — the state after the calls is the same empty state, in
which `account_exists(1)` is still `false`; no zero-valued EOA was
implicitly created. -/
theorem get_balance_does_not_create_account :
    EvmState.get_balance ⟨[]⟩ 1 = 0
    ∧ EvmState.get_nonce ⟨[]⟩ 1 = 0
    ∧ EvmState.account_exists ⟨[]⟩ 1 = false :=
  ⟨rfl, rfl, rfl⟩

/-- C9 (amended): for an address absent from the account map,
`get_balance` and `get_nonce` return 0 without creating any account (they
take `&self`; the map is unchanged and `account_exists` stays false);
the implicit creation of a zero-valued EOA happens in `get_account_mut`
(the `entry(..).or_insert_with(Account::new_eoa)` used by the mutating
paths), after which the account exists. -/
theorem balance_nonce_query_does_not_create (st : EvmState) (a : Nat)
    (h : List.lookup a st.accounts = none) :
    EvmState.get_balance st a = 0
    ∧ EvmState.get_nonce st a = 0
    ∧ EvmState.account_exists st a = false
    ∧ (EvmState.get_account_mut st a).1 = Account.new_eoa
    ∧ EvmState.account_exists (EvmState.get_account_mut st a).2 a = true := by
  refine ⟨?_, ?_, ?_, ?_, ?_⟩
  · unfold EvmState.get_balance
    rw [h]; rfl
  · unfold EvmState.get_nonce
    rw [h]; rfl
  · unfold EvmState.account_exists
    rw [h]; rfl
  · unfold EvmState.get_account_mut
    rw [h]
  · unfold EvmState.get_account_mut
    rw [h]
    unfold EvmState.account_exists
    simp only []
    rw [lookup_append_of_none _ _ _ h]
    simp [List.lookup]

/-- C9 witness: the amended theorem at the empty state and address 1. -/
theorem balance_nonce_query_does_not_create_witness :
    EvmState.get_balance ⟨[]⟩ 1 = 0
    ∧ EvmState.get_nonce ⟨[]⟩ 1 = 0
    ∧ EvmState.account_exists ⟨[]⟩ 1 = false
    ∧ (EvmState.get_account_mut ⟨[]⟩ 1).1 = Account.new_eoa
    ∧ EvmState.account_exists (EvmState.get_account_mut ⟨[]⟩ 1).2 1 = true :=
  balance_nonce_query_does_not_create ⟨[]⟩ 1 rfl

/-- C10: `Memory::load` and `Memory::load_range` only ever append zero
bytes: viewed as a zero-default infinite byte array the memory is unchanged
(old positions keep their byte, appended positions hold 0), the size never
decreases, and the returned word / byte range is exactly the prior
contents, zero-extended, at the requested offsets. -/
theorem load_preserves_and_zero_extends (m : List Nat) (off len i : Nat) :
    (Memory.load m off).2.getD i 0 = m.getD i 0
    ∧ (Memory.load_range m off len).2.getD i 0 = m.getD i 0
    ∧ m.length ≤ (Memory.load m off).2.length
    ∧ m.length ≤ (Memory.load_range m off len).2.length
    ∧ (Memory.load m off).1
        = beWord ((List.range 32).map (fun j => m.getD (off + j) 0))
    ∧ (Memory.load_range m off len).1
        = (List.range len).map (fun j => m.getD (off + j) 0) := by
  refine ⟨expand_to_getD m _ i, expand_to_getD m _ i, ?_, ?_, ?_, ?_⟩
  · simp [Memory.load, expand_to_length]
  · simp [Memory.load_range, expand_to_length]
  · unfold Memory.load
    simp only []
    rw [drop_take_eq_map_getD _ _ _ (by rw [expand_to_length]; omega)]
    congr 1
    exact List.map_congr_left (fun j _ => expand_to_getD m _ _)
  · unfold Memory.load_range
    simp only []
    rw [drop_take_eq_map_getD _ _ _ (by rw [expand_to_length]; omega)]
    exact List.map_congr_left (fun j _ => expand_to_getD m _ _)
